import Mathlib

/-!
Verification development for the camoufox patch-application engine
(`scripts/_mixin.py` and `scripts/safe-patch.py`).

External commands are modelled by an inductive `Cmd` type (one constructor
per distinct command line the scripts build) together with environment
records that fix the exit status each command would return and the set of
`*.rej` conflict-artifact files present in the tree.  Each Python function
is embedded as a pure Lean function from such an environment to the list
of commands it issues (its trace) and its outcome.
-/

namespace Camoufox

/-- The external command lines issued by the patch engine, one constructor per
distinct command string built in the source:
* `patchDryRunFwd f`  = `patch -p1 --dry-run --force --silent -i f`
* `patchDryRunRev f`  = `patch -p1 -R --dry-run --force --silent -i f`
* `gitApply3way f`    = `git apply --3way --whitespace=fix f`
* `patchFwdFuzz n f`  = `patch -p1 --fuzz=n --forward -i f`
* `patchRevFuzz n f`  = `patch -p1 -R --fuzz=n -i f`
* `findRejFirst`      = `find . -name *.rej -type f -print -quit`
* `findRejAll`        = `find . -name *.rej -type f` -/
inductive Cmd where
  | patchDryRunFwd (patchfile : String)
  | patchDryRunRev (patchfile : String)
  | gitApply3way (patchfile : String)
  | patchFwdFuzz (fuzz : Nat) (patchfile : String)
  | patchRevFuzz (fuzz : Nat) (patchfile : String)
  | findRejFirst
  | findRejAll
deriving Repr, DecidableEq

/-- A command is a dry run (reports success or failure without mutating the
tree) exactly when it carries patch(1)'s `--dry-run` flag. -/
def Cmd.dryRun : Cmd → Bool
  | .patchDryRunFwd _ => true
  | .patchDryRunRev _ => true
  | _ => false

/-- Environment for one `_mixin.patch` invocation: the exit statuses the
external commands would return in the current tree, whether `.git` exists,
and the `*.rej` files present after the fuzzy apply attempt. -/
structure MixinEnv where
  fwdDryExit : Nat
  revDryExit : Nat
  gitRepo : Bool
  gitApplyExit : Nat
  patchCmdExit : Nat
  rejFiles : List String
deriving Repr, DecidableEq

/-- Exit status of `find . -name *.rej -type f -print -quit`: GNU find exits
with status 0 whenever the directory walk completes, whether or not any file
matched (`-print -quit` only limits the output); a nonzero status would mean
a traversal error, which is outside this model.  In particular the status
does not depend on `rejFiles`. -/
def gnuFindQuitExit (rejFiles : List String) : Nat := 0

/-- Outcome of one `_mixin.patch` invocation (the Python function returns
`None` everywhere; the outcome distinguishes the return sites and the fatal
`script_exit(1)` call):
* `skippedAlreadyApplied`: early return from the dry-run probe
  (`*** Skipping ... (already applied)`);
* `appliedGit`: `git apply --3way` returned 0;
* `appliedPatchCmd`: the `patch` command returned 0;
* `fatalRejected`: `script_exit(1)` after the rejected-hunks report;
* `noOpAlreadyApplied`: the `Note: All hunks ... already applied` return. -/
inductive PatchOutcome where
  | skippedAlreadyApplied
  | appliedGit
  | appliedPatchCmd
  | fatalRejected
  | noOpAlreadyApplied
deriving Repr, DecidableEq

/-- The apply stage of `_mixin.patch` (source lines 132-187): the `git apply`
tier runs only in a git repo and only forward; then the `patch` command with
fuzz tolerance; on nonzero exit, the failure classifier checks the exit
status of `findRejFirst` and, finding it 0, prints the `.rej` files (issuing
`findRejAll`) and exits fatally; the `noOpAlreadyApplied` branch is taken
when that status is nonzero. -/
def mixinApplyStage (env : MixinEnv) (patchfile : String) (reverse : Bool)
    (fuzz : Nat) : List Cmd × PatchOutcome :=
  let patchCmd : Cmd :=
    if reverse then .patchRevFuzz fuzz patchfile else .patchFwdFuzz fuzz patchfile
  let fallback : List Cmd × PatchOutcome :=
    if env.patchCmdExit = 0 then ([patchCmd], .appliedPatchCmd)
    else if gnuFindQuitExit env.rejFiles = 0 then
      ([patchCmd, .findRejFirst, .findRejAll], .fatalRejected)
    else
      ([patchCmd, .findRejFirst], .noOpAlreadyApplied)
  if env.gitRepo && !reverse then
    if env.gitApplyExit = 0 then ([.gitApply3way patchfile], .appliedGit)
    else (.gitApply3way patchfile :: fallback.1, fallback.2)
  else fallback

/-- `_mixin.patch(patchfile, reverse, silent, fuzz)` (source lines 110-187).
The probe stage (lines 119-130) runs only when `reverse` is false: a forward
dry run; if it fails, a reverse dry run, and if that succeeds the patch is
skipped as already applied.  Otherwise control reaches the apply stage. -/
def mixinPatch (env : MixinEnv) (patchfile : String) (reverse : Bool)
    (fuzz : Nat) : List Cmd × PatchOutcome :=
  if reverse then mixinApplyStage env patchfile reverse fuzz
  else if env.fwdDryExit = 0 then
    let rest := mixinApplyStage env patchfile reverse fuzz
    (.patchDryRunFwd patchfile :: rest.1, rest.2)
  else if env.revDryExit = 0 then
    ([.patchDryRunFwd patchfile, .patchDryRunRev patchfile], .skippedAlreadyApplied)
  else
    let rest := mixinApplyStage env patchfile reverse fuzz
    (.patchDryRunFwd patchfile :: .patchDryRunRev patchfile :: rest.1, rest.2)

/-- Python's `<=` on strings, at the character-list level: lexicographic
comparison by code point. -/
def charLe : List Char → List Char → Bool
  | [], _ => true
  | _ :: _, [] => false
  | a :: as, b :: bs =>
    if a = b then charLe as bs else decide (a.toNat < b.toNat)

/-- The characters of a path after its last `/` (the whole path when it has
none): a left fold that restarts the accumulator at every separator. -/
def afterLastSlash (chars : List Char) : List Char :=
  chars.foldl (fun acc c => if c = '/' then [] else acc ++ [c]) []

/-- `os.path.basename`: the part of the path after the last `/`. -/
def basename (p : String) : String :=
  String.mk (afterLastSlash p.data)

/-- The regex `\d+-.*` continued after its first digit: zero or more further
digits, then a dash (after which `.*` matches anything). -/
def digitsThenDash : List Char → Bool
  | [] => false
  | c :: cs => if c = '-' then true else c.isDigit && digitsThenDash cs

/-- `_mixin.is_bootstrap_patch(name)`: `re.match(r'\d+\-.*',
os.path.basename(name))` — the basename starts with one or more digits
followed by a dash (digits taken as ASCII `0-9`). -/
def isBootstrapPatch (name : String) : Bool :=
  match (basename name).data with
  | [] => false
  | c :: cs => c.isDigit && digitsThenDash cs

/-- The comparison `sorted(..., key=os.path.basename)` performs: basenames
compared by Python's lexicographic code-point order. -/
def basenameLe (a b : String) : Prop :=
  charLe (basename a).data (basename b).data = true

instance : DecidableRel basenameLe := fun a b => by
  unfold basenameLe; infer_instance

/-- `_mixin.list_patches`: `sorted(list_files(root_dir, suffix),
key=os.path.basename)` — a stable sort of the discovered files by basename
under the string order (Python's stable `sorted` is embedded as Mathlib's
stable `insertionSort`). -/
def listPatches (files : List String) : List String :=
  files.insertionSort basenameLe

/-- `_mixin.script_exit(statuscode)`: prints the elapsed wall-clock time only
when more than 60 seconds have passed since process start, then exits with
`statuscode`.  The first component is the reported elapsed time (if any), the
second the exit status. -/
def scriptExit (elapsedSeconds : Nat) (statuscode : Nat) : Option Nat × Nat :=
  (if 60 < elapsedSeconds then some elapsedSeconds else none, statuscode)

/-- Environment for the dry-run probe `safe-patch.is_patch_applied`: exit
statuses of the forward and reverse dry-run patch commands. -/
structure ProbeEnv where
  fwdDryExit : Nat
  revDryExit : Nat
deriving Repr, DecidableEq

/-- `safe-patch.is_patch_applied(patch_file)` (source lines 81-99): forward
dry run; exit 0 means the patch can still be applied (`False`); otherwise a
reverse dry run, whose success means the patch is already applied. -/
def isPatchApplied (env : ProbeEnv) (patchfile : String) : List Cmd × Bool :=
  if env.fwdDryExit = 0 then ([.patchDryRunFwd patchfile], false)
  else ([.patchDryRunFwd patchfile, .patchDryRunRev patchfile], env.revDryExit == 0)

/-- The three probe states of the spec, derived from the boolean the code
returns together with the branch that produced it. -/
inductive ProbeState where
  | unapplied
  | alreadyApplied
  | indeterminate
deriving Repr, DecidableEq

/-- The probe state `is_patch_applied` lands in: forward dry run succeeds →
`unapplied`; forward fails, reverse succeeds → `alreadyApplied` (the `True`
return); both fail → `indeterminate` (also a `False` return). -/
def probeState (env : ProbeEnv) : ProbeState :=
  if env.fwdDryExit = 0 then .unapplied
  else if env.revDryExit = 0 then .alreadyApplied
  else .indeterminate

/-- Environment for `safe-patch.apply_patch`: exit statuses of the two apply
tiers and the `*.rej` files present after both fail. -/
structure ApplyEnv where
  gitApplyExit : Nat
  patchCmdExit : Nat
  rejFiles : List String
deriving Repr, DecidableEq

/-- Stdout of `find . -name *.rej -type f`: one matched path per line. -/
def findRejOutput (rejFiles : List String) : String :=
  String.join (rejFiles.map (· ++ "\n"))

/-- Python's `str.strip()` at the character-list level: remove leading and
trailing whitespace (space, tab, carriage return, newline). -/
def stripChars (l : List Char) : List Char :=
  ((l.dropWhile Char.isWhitespace).reverse.dropWhile Char.isWhitespace).reverse

/-- Python's `str.strip()`. -/
def pyStrip (s : String) : String :=
  String.mk (stripChars s.data)

/-- Python's `str.split("\n")` at the character-list level: cut at every
newline, keeping empty pieces. -/
def splitNLChars : List Char → List (List Char)
  | [] => [[]]
  | c :: cs =>
    match splitNLChars cs with
    | [] => [[c]]
    | l :: ls => if c = '\n' then [] :: l :: ls else (c :: l) :: ls

/-- Python's `str.split("\n")`. -/
def pySplitNL (s : String) : List String :=
  (splitNLChars s.data).map String.mk

/-- Result of `safe-patch.apply_patch` (the Python function returns a bool;
the constructors distinguish its four return sites):
* `okGitApply` — `git apply --3way` succeeded (`True`);
* `okPatchCmd` — the fuzzy `patch` command succeeded (`True`);
* `rejected paths` — `.rej` files were listed by find: `Patch failed with
  rejected hunks`, paths surfaced (`False`);
* `failedNoArtifacts` — find printed nothing: `Patch application failed`
  (`False`). -/
inductive ApplyResult where
  | okGitApply
  | okPatchCmd
  | rejected (paths : List String)
  | failedNoArtifacts
deriving Repr, DecidableEq

/-- The boolean `apply_patch` actually returns. -/
def ApplyResult.success : ApplyResult → Bool
  | .okGitApply => true
  | .okPatchCmd => true
  | .rejected _ => false
  | .failedNoArtifacts => false

/-- `safe-patch.apply_patch(patch_file)` (source lines 129-183): try
`git apply --3way --whitespace=fix`; on failure `patch -p1 --fuzz=2
--forward`; on failure list the `*.rej` files — if the captured stdout is
nonempty after stripping, report rejected hunks with the stripped output
split on newlines as the artifact paths, else report plain failure. -/
def applyPatch (env : ApplyEnv) (patchfile : String) : List Cmd × ApplyResult :=
  if env.gitApplyExit = 0 then ([.gitApply3way patchfile], .okGitApply)
  else if env.patchCmdExit = 0 then
    ([.gitApply3way patchfile, .patchFwdFuzz 2 patchfile], .okPatchCmd)
  else
    let out := findRejOutput env.rejFiles
    if pyStrip out = "" then
      ([.gitApply3way patchfile, .patchFwdFuzz 2 patchfile, .findRejAll],
        .failedNoArtifacts)
    else
      ([.gitApply3way patchfile, .patchFwdFuzz 2 patchfile, .findRejAll],
        .rejected (pySplitNL (pyStrip out)))

/-- State of the git working tree inside the source directory, at the
granularity of the git primitives `safe-patch.py` shells out to
(`add -A`, `commit --allow-empty`, `tag -f`, `reset --hard`, `clean -fd`).
File contents are association lists `path ↦ bytes`:
* `headCommit` — the tree content recorded by the current `HEAD` commit;
* `workTracked` — current on-disk content of the tracked files;
* `untracked` — on-disk files git does not track (e.g. `.rej` artifacts);
* `tags` — tag name ↦ tree content of the tagged commit (front entry wins,
  as `tag -f` repoints an existing name). -/
structure GitRepo where
  headCommit : List (String × String)
  workTracked : List (String × String)
  untracked : List (String × String)
  tags : List (String × List (String × String))
deriving Repr, DecidableEq

/-- The byte content an observer sees on disk: tracked plus untracked files. -/
def GitRepo.observable (g : GitRepo) : List (String × String) :=
  g.workTracked ++ g.untracked

/-- `safe-patch.create_checkpoint(tag_name)` (source lines 102-126):
`git add -A` stages every change including untracked files; `git commit -a
--allow-empty` records them (succeeding even on a clean tree); `git tag -f
tag_name` points the label at the resulting revision, replacing any prior
attachment.  Returns the new repo state; the revision content stands in for
the returned commit hash. -/
def createCheckpoint (g : GitRepo) (tagName : String) : GitRepo :=
  let newHead := g.workTracked ++ g.untracked
  { headCommit := newHead
    workTracked := newHead
    untracked := []
    tags := (tagName, newHead) :: g.tags }

/-- A subsequent mutation of the tree (e.g. a patch attempt): tracked files
rewritten to `w`, untracked leftovers (such as `.rej` files) now `u`. -/
def GitRepo.mutate (g : GitRepo) (w u : List (String × String)) : GitRepo :=
  { g with workTracked := w, untracked := u }

/-- `safe-patch.revert_to_checkpoint(commit_hash, tag_name)` (source lines
186-202): `git reset --hard tag_name` — fatal `sys.exit(1)` when the tag does
not resolve — restores `HEAD` and every tracked file to the tagged revision,
then `git clean -fd` deletes all untracked files and directories. -/
def revertToCheckpoint (g : GitRepo) (tagName : String) : Except Nat GitRepo :=
  match g.tags.lookup tagName with
  | none => .error 1
  | some content =>
    .ok { g with headCommit := content, workTracked := content, untracked := [] }

/-- `response.strip().lower() in ["y", "yes"]` — the confirmation check of
`safe-patch.main` for an already-applied patch (`.strip()` embedded as
`stripChars`, `.lower()` as `Char.toLower` on each character). -/
def confirmResponse (response : String) : Bool :=
  let x := String.mk ((stripChars response.data).map Char.toLower)
  x == "y" || x == "yes"

/-- Environment for one `safe-patch.main` run: every external observation the
control flow branches on. -/
structure MainEnv where
  patchFileFound : Bool
  srcDirFound : Bool
  gitRepo : Bool
  probe : ProbeEnv
  userResponse : String
  app : ApplyEnv
  noRevert : Bool
  resetExit : Nat
deriving Repr, DecidableEq

/-- `safe-patch.main()` (source lines 214-303) reduced to its exit status:
missing patch file → 1; unresolvable source dir → 1; not a git repo → 1;
already applied and the user declines → 0; otherwise checkpoint, apply:
success → 0; failure with `--no-revert` → 1; failure with revert → 1
(`revert_to_checkpoint` itself exits 1 when `git reset` fails). -/
def mainExit (env : MainEnv) : Nat :=
  if !env.patchFileFound then 1
  else if !env.srcDirFound then 1
  else if !env.gitRepo then 1
  else if (isPatchApplied env.probe "p").2 && !confirmResponse env.userResponse then 0
  else if (applyPatch env.app "p").2.success then 0
  else if env.noRevert then 1
  else if env.resetExit ≠ 0 then 1
  else 1

/-- How the `main()` call inside the `__main__` guard ends. -/
inductive RunEvent where
  | completes
  | keyboardInterrupt
  | unexpectedError
deriving Repr, DecidableEq

/-- The `if __name__ == "__main__"` harness (source lines 306-317): `main`'s
own `sys.exit` status when it completes, 130 on `KeyboardInterrupt`, 1 on any
other exception. -/
def topLevelExit (env : MainEnv) (ev : RunEvent) : Nat :=
  match ev with
  | .completes => mainExit env
  | .keyboardInterrupt => 130
  | .unexpectedError => 1

/-- Process state threaded through `temp_cd`: the current working directory
plus arbitrary other state `σ` the enclosed block may touch. -/
structure ProcState (σ : Type) where
  cwd : String
  payload : σ
deriving Repr, DecidableEq

/-- How a `temp_cd` invocation can end: the assertion that the target exists
fails before any `chdir`, or the block runs and either returns or raises
(exceptions and interrupts alike reach the `finally`). -/
inductive TempCdErr (ε : Type) where
  | assertFailed
  | fromBlock (e : ε)
deriving Repr, DecidableEq

/-- `_mixin.temp_cd(path)` (source lines 19-30): record the old cwd, assert
the absolute target exists, `chdir` into it, run the block, and in a
`finally` always `chdir` back.  The block is any state transformer that may
raise (`none` = normal return, `some e` = exception propagating out); it may
itself change the cwd. -/
def tempCd {σ ε : Type} (pathOk : Bool) (absPath : String)
    (block : ProcState σ → Option ε × ProcState σ) (s : ProcState σ) :
    Option (TempCdErr ε) × ProcState σ :=
  if pathOk then
    let res := block { s with cwd := absPath }
    (res.1.map .fromBlock, { res.2 with cwd := s.cwd })
  else
    (some .assertFailed, s)

/-- Modelled from the spec: the batch orchestrator (the setup script that
applies the full ordered patch set, absent from the sources; only its callee
`_mixin.patch` and `_mixin.script_exit` are present) "iterates the ordered
PatchFile sequence ... on the first `Rejected`/`Failed` outcome it halts
immediately", the halt being the `script_exit(1)` call inside
`_mixin.patch`, which terminates the whole process.  Returns the basenames
attempted in order and the process exit status. -/
def runBatch (patches : List (MixinEnv × String)) (fuzz : Nat) :
    List String × Nat :=
  match patches with
  | [] => ([], 0)
  | (env, pf) :: rest =>
    match (mixinPatch env pf false fuzz).2 with
    | .fatalRejected => ([pf], 1)
    | _ =>
      let r := runBatch rest fuzz
      (pf :: r.1, r.2)

/-! ### Helper lemmas: `charLe` is a total preorder, antisymmetric up to
equal character lists, and stable sorts under it are unique when the sort
keys are distinct. -/

theorem char_toNat_injective {a b : Char} (h : a.toNat = b.toNat) : a = b :=
  Char.ext (UInt32.ext h)

theorem charLe_total : ∀ a b : List Char, charLe a b = true ∨ charLe b a = true := by
  intro a
  induction a with
  | nil => intro b; left; rfl
  | cons x as ih =>
    intro b
    cases b with
    | nil => right; rfl
    | cons y bs =>
      by_cases hxy : x = y
      · subst hxy
        rcases ih bs with h | h
        · left; simpa [charLe] using h
        · right; simpa [charLe] using h
      · rcases Nat.lt_trichotomy x.toNat y.toNat with h | h | h
        · left; simp [charLe, hxy, h]
        · exact absurd (char_toNat_injective h) hxy
        · right
          have hyx : y ≠ x := fun e => hxy e.symm
          simp [charLe, hyx, h]

theorem charLe_trans :
    ∀ a b c : List Char, charLe a b = true → charLe b c = true → charLe a c = true := by
  intro a
  induction a with
  | nil => intro b c h1 h2; rfl
  | cons x as ih =>
    intro b c h1 h2
    cases b with
    | nil => simp [charLe] at h1
    | cons y bs =>
      cases c with
      | nil => simp [charLe] at h2
      | cons z cs =>
        simp only [charLe] at h1 h2 ⊢
        by_cases hxy : x = y <;> by_cases hyz : y = z
        · subst hxy; subst hyz
          rw [if_pos rfl] at h1 h2 ⊢
          exact ih bs cs h1 h2
        · subst hxy
          rw [if_pos rfl] at h1
          rw [if_neg hyz] at h2 ⊢
          exact h2
        · subst hyz
          rw [if_neg hxy] at h1 ⊢
          exact h1
        · rw [if_neg hxy] at h1
          rw [if_neg hyz] at h2
          have h3 : x.toNat < z.toNat :=
            Nat.lt_trans (of_decide_eq_true h1) (of_decide_eq_true h2)
          have hxz : x ≠ z := by
            intro e; rw [e] at h3; exact Nat.lt_irrefl _ h3
          rw [if_neg hxz]
          exact decide_eq_true h3

theorem charLe_antisymm :
    ∀ a b : List Char, charLe a b = true → charLe b a = true → a = b := by
  intro a
  induction a with
  | nil =>
    intro b h1 h2
    cases b with
    | nil => rfl
    | cons y bs => simp [charLe] at h2
  | cons x as ih =>
    intro b h1 h2
    cases b with
    | nil => simp [charLe] at h1
    | cons y bs =>
      simp only [charLe] at h1 h2
      by_cases hxy : x = y
      · subst hxy
        rw [if_pos rfl] at h1 h2
        rw [ih bs h1 h2]
      · rw [if_neg hxy] at h1
        rw [if_neg (fun e => hxy e.symm)] at h2
        exact absurd (Nat.lt_trans (of_decide_eq_true h1) (of_decide_eq_true h2))
          (Nat.lt_irrefl _)

instance : IsTotal String basenameLe := ⟨fun a b => charLe_total _ _⟩

instance : IsTrans String basenameLe := ⟨fun a b c => charLe_trans _ _ _⟩

theorem basename_eq_of_basenameLe_antisymm {a b : String}
    (h1 : basenameLe a b) (h2 : basenameLe b a) : basename a = basename b :=
  String.ext (charLe_antisymm _ _ h1 h2)

/-- Two lists sorted by basename that are permutations of each other are
equal, provided the basenames carry no duplicates: the sorted order is then
independent of the order the files were discovered in. -/
theorem eq_of_sorted_perm_nodup_basenames :
    ∀ {l₁ l₂ : List String}, l₁.Perm l₂ → l₁.Sorted basenameLe →
      l₂.Sorted basenameLe → (l₁.map basename).Nodup → l₁ = l₂ := by
  intro l₁
  induction l₁ with
  | nil => intro l₂ hp _ _ _; exact hp.nil_eq
  | cons a t₁ ih =>
    intro l₂ hp hs₁ hs₂ hnd
    have ha : a ∈ l₂ := hp.subset (List.mem_cons_self _ _)
    rcases List.append_of_mem ha with ⟨u, v, rfl⟩
    cases u with
    | nil =>
      simp only [List.nil_append] at hp hs₂ ⊢
      have hp' : t₁.Perm v := (List.perm_cons a).1 hp
      have := ih hp' (List.sorted_cons.1 hs₁).2 (List.sorted_cons.1 hs₂).2
        (by simpa using (List.nodup_cons.1 (by simpa using hnd)).2)
      rw [this]
    | cons x u' =>
      exfalso
      have hp' : t₁.Perm (x :: u' ++ v) := (List.perm_cons a).1 (hp.trans List.perm_middle)
      have hx₁ : x ∈ t₁ := hp'.symm.subset (by simp)
      have h1 : basenameLe a x := (List.sorted_cons.1 hs₁).1 x hx₁
      have h2 : basenameLe x a := by
        have hsx : (x :: (u' ++ a :: v)).Sorted basenameLe := by simpa using hs₂
        exact (List.sorted_cons.1 hsx).1 a (by simp)
      have hkey : basename x = basename a := basename_eq_of_basenameLe_antisymm h2 h1
      have hmem : basename a ∈ t₁.map basename := by
        rw [← hkey]; exact List.mem_map_of_mem _ hx₁
      have hnot : basename a ∉ t₁.map basename :=
        (List.nodup_cons.1 (by simpa using hnd)).1
      exact hnot hmem

/-! ### Claim theorems -/

/-- C1, counterexample: with both apply tiers failing (`git apply` and the
fuzzy `patch` command nonzero) and no `.rej` artifact in the tree, the
interactive path classifies the attempt as a plain failure (`Patch
application failed`, returning `False`) — not as a successful
`AlreadyApplied` no-op — and the batch path exits fatally via
`script_exit(1)` even though the tree holds no artifact. -/
theorem failure_classifier_counterexample :
    (applyPatch ⟨1, 1, []⟩ "p.patch").2 = .failedNoArtifacts ∧
    (applyPatch ⟨1, 1, []⟩ "p.patch").2.success = false ∧
    (mixinPatch ⟨0, 0, true, 1, 1, []⟩ "p.patch" false 2).2 = .fatalRejected := by
  exact ⟨by decide, by decide, by decide⟩

/-- C1, amended: after both apply strategies fail, the interactive path
returns `False` in every case — `Rejected` with the listed artifact paths
exactly when the find output is nonempty, plain `Failed` when it is empty
(never a success) — while the batch path tests the exit status of `find`,
which is 0 whether or not `.rej` files exist, so it always takes the fatal
`Rejected` branch and its `AlreadyApplied` no-op branch is unreachable. -/
theorem failure_classifier_amended :
    (∀ (env : ApplyEnv) (pf : String), env.gitApplyExit ≠ 0 → env.patchCmdExit ≠ 0 →
      (applyPatch env pf).2.success = false ∧
      ((applyPatch env pf).2 = .failedNoArtifacts ↔
        pyStrip (findRejOutput env.rejFiles) = "") ∧
      ((applyPatch env pf).2 =
          .rejected (pySplitNL (pyStrip (findRejOutput env.rejFiles))) ↔
        pyStrip (findRejOutput env.rejFiles) ≠ "")) ∧
    (∀ (menv : MixinEnv) (pf : String) (reverse : Bool) (fuzz : Nat),
      (mixinPatch menv pf reverse fuzz).2 ≠ .noOpAlreadyApplied) ∧
    (∀ (menv : MixinEnv) (pf : String) (fuzz : Nat),
      menv.fwdDryExit = 0 → menv.gitApplyExit ≠ 0 → menv.patchCmdExit ≠ 0 →
      (mixinPatch menv pf false fuzz).2 = .fatalRejected) := by
  refine ⟨?_, ?_, ?_⟩
  · intro env pf h1 h2
    by_cases h3 : pyStrip (findRejOutput env.rejFiles) = "" <;>
      simp [applyPatch, ApplyResult.success, h1, h2, h3]
  · intro menv pf reverse fuzz
    have hstage : ∀ r, (mixinApplyStage menv pf r fuzz).2 ≠ .noOpAlreadyApplied := by
      intro r
      simp only [mixinApplyStage, gnuFindQuitExit]
      split_ifs <;> simp
    by_cases h : menv.fwdDryExit = 0 <;> by_cases h2 : menv.revDryExit = 0 <;>
      cases reverse <;> simp [mixinPatch, h, h2, hstage]
  · intro menv pf fuzz h0 h1 h2
    cases hg : menv.gitRepo <;>
      simp [mixinPatch, mixinApplyStage, gnuFindQuitExit, h0, h1, h2, hg]

/-- C1, witness for the amended theorem at a concrete environment. -/
theorem failure_classifier_amended_witness :
    (applyPatch ⟨1, 1, ["./a.rej"]⟩ "p.patch").2.success = false :=
  (failure_classifier_amended.1 ⟨1, 1, ["./a.rej"]⟩ "p.patch"
    (by decide) (by decide)).1

/-- C2, counterexample: on the basenames of the claim's own example, the
batch ordering is plain lexicographic — `10-foo.patch` sorts before
`2-bar.patch` because `1 < 2` as characters — not the claimed
numeric-prefix-first order, even though both are bootstrap patches. -/
theorem listPatches_counterexample :
    listPatches ["10-foo.patch", "2-bar.patch", "bar.patch"] =
      ["10-foo.patch", "2-bar.patch", "bar.patch"] ∧
    listPatches ["10-foo.patch", "2-bar.patch", "bar.patch"] ≠
      ["2-bar.patch", "10-foo.patch", "bar.patch"] ∧
    isBootstrapPatch "2-bar.patch" = true ∧ isBootstrapPatch "10-foo.patch" = true := by
  exact ⟨by decide, by decide, by decide, by decide⟩

/-- C2, amended: `list_patches` sorts every patch — bootstrap or not —
lexicographically by basename: the output is sorted under `basenameLe`, is a
permutation of the input, and (for duplicate-free basenames) is independent
of the order the directory walk discovered the files in. -/
theorem listPatches_lexicographic_amended (files files₂ : List String) :
    (listPatches files).Sorted basenameLe ∧ (listPatches files).Perm files ∧
      (files₂.Perm files → (files.map basename).Nodup →
        listPatches files₂ = listPatches files) := by
  refine ⟨List.sorted_insertionSort _ _, List.perm_insertionSort _ _, ?_⟩
  intro hperm hnd
  refine eq_of_sorted_perm_nodup_basenames ?_ (List.sorted_insertionSort _ _)
    (List.sorted_insertionSort _ _) ?_
  · exact (List.perm_insertionSort _ files₂).trans
      (hperm.trans (List.perm_insertionSort _ files).symm)
  · have h : List.Perm ((listPatches files₂).map basename) (files.map basename) :=
      ((List.perm_insertionSort basenameLe files₂).trans hperm).map basename
    exact h.symm.nodup hnd

/-- C2, witness: the amended theorem applied to the example basenames in two
different discovery orders. -/
theorem listPatches_lexicographic_amended_witness :
    listPatches ["2-bar.patch", "10-foo.patch", "bar.patch"] =
      listPatches ["10-foo.patch", "2-bar.patch", "bar.patch"] :=
  (listPatches_lexicographic_amended ["10-foo.patch", "2-bar.patch", "bar.patch"]
    ["2-bar.patch", "10-foo.patch", "bar.patch"]).2.2 (by decide) (by decide)

/-- C3: the probe issues only dry-run commands (no mutation), and classifies
by the exact decision order of the claim: forward dry run succeeds →
`Unapplied` (not already applied); forward fails and reverse succeeds →
`AlreadyApplied` (the only case reported as already applied); both fail →
`Indeterminate`.  The batch path's probe inside `_mixin.patch` skips a patch
as already applied under precisely the same condition. -/
theorem probe_dry_run_classification (env : ProbeEnv) (pf : String) :
    ((isPatchApplied env pf).1.all Cmd.dryRun = true) ∧
    ((isPatchApplied env pf).2 = true ↔ probeState env = .alreadyApplied) ∧
    (probeState env = .unapplied ↔ env.fwdDryExit = 0) ∧
    (probeState env = .alreadyApplied ↔ env.fwdDryExit ≠ 0 ∧ env.revDryExit = 0) ∧
    (probeState env = .indeterminate ↔ env.fwdDryExit ≠ 0 ∧ env.revDryExit ≠ 0) ∧
    (∀ (menv : MixinEnv) (fuzz : Nat),
      ((mixinPatch menv pf false fuzz).2 = .skippedAlreadyApplied ↔
        menv.fwdDryExit ≠ 0 ∧ menv.revDryExit = 0)) := by
  refine ⟨?_, ?_, ?_, ?_, ?_, ?_⟩
  · by_cases h : env.fwdDryExit = 0 <;> simp [isPatchApplied, h, Cmd.dryRun]
  · by_cases h : env.fwdDryExit = 0 <;> by_cases h2 : env.revDryExit = 0 <;>
      simp [isPatchApplied, probeState, h, h2]
  · by_cases h : env.fwdDryExit = 0 <;> by_cases h2 : env.revDryExit = 0 <;>
      simp [probeState, h, h2]
  · by_cases h : env.fwdDryExit = 0 <;> by_cases h2 : env.revDryExit = 0 <;>
      simp [probeState, h, h2]
  · by_cases h : env.fwdDryExit = 0 <;> by_cases h2 : env.revDryExit = 0 <;>
      simp [probeState, h, h2]
  · intro menv fuzz
    have hstage : ∀ r, (mixinApplyStage menv pf r fuzz).2 ≠ .skippedAlreadyApplied := by
      intro r
      simp only [mixinApplyStage, gnuFindQuitExit]
      split_ifs <;> simp
    by_cases h : menv.fwdDryExit = 0 <;> by_cases h2 : menv.revDryExit = 0 <;>
      simp [mixinPatch, h, h2, hstage]

/-- C3, witness: a patch whose forward dry run fails and whose reverse dry
run succeeds is reported already applied. -/
theorem probe_dry_run_classification_witness :
    (isPatchApplied ⟨1, 0⟩ "p.patch").2 = true :=
  (probe_dry_run_classification ⟨1, 0⟩ "p.patch").2.1.mpr (by decide)

/-- C4, counterexample: in the batch path on a tree that is not a git
repository, the fuzzy `patch` command is the first (and only) apply tier
attempted — `git apply --3way` is never issued — contradicting "the fuzzy
apply is never attempted first". -/
theorem tier_order_counterexample :
    (mixinPatch ⟨0, 0, false, 0, 0, []⟩ "p.patch" false 2).1 =
      [.patchDryRunFwd "p.patch", .patchFwdFuzz 2 "p.patch"] ∧
    Cmd.gitApply3way "p.patch" ∉
      (mixinPatch ⟨0, 0, false, 0, 0, []⟩ "p.patch" false 2).1 := by
  exact ⟨by decide, by decide⟩

/-- C4, amended: the interactive path always runs `git apply --3way
--whitespace=fix` first and runs the fuzzy `patch -p1 --fuzz=2 --forward`
tier exactly when the first tier failed (stopping at the first success); the
batch path does the same whenever the tree is a git repository, but on a
non-git tree it skips the git tier entirely and goes straight to the fuzzy
apply. -/
theorem tier_order_amended :
    (∀ (env : ApplyEnv) (pf : String),
      (applyPatch env pf).1.head? = some (.gitApply3way pf) ∧
      (Cmd.patchFwdFuzz 2 pf ∈ (applyPatch env pf).1 ↔ env.gitApplyExit ≠ 0) ∧
      (env.gitApplyExit = 0 → (applyPatch env pf).2 = .okGitApply)) ∧
    (∀ (menv : MixinEnv) (pf : String) (fuzz : Nat),
      (menv.gitRepo = true →
        (mixinApplyStage menv pf false fuzz).1.head? = some (.gitApply3way pf) ∧
        (Cmd.patchFwdFuzz fuzz pf ∈ (mixinApplyStage menv pf false fuzz).1 ↔
          menv.gitApplyExit ≠ 0) ∧
        (menv.gitApplyExit = 0 →
          (mixinApplyStage menv pf false fuzz).2 = .appliedGit)) ∧
      (menv.gitRepo = false →
        (mixinApplyStage menv pf false fuzz).1.head? = some (.patchFwdFuzz fuzz pf) ∧
        Cmd.gitApply3way pf ∉ (mixinApplyStage menv pf false fuzz).1)) := by
  constructor
  · intro env pf
    by_cases h1 : env.gitApplyExit = 0 <;> by_cases h2 : env.patchCmdExit = 0 <;>
      by_cases h3 : pyStrip (findRejOutput env.rejFiles) = "" <;>
      simp [applyPatch, h1, h2, h3]
  · intro menv pf fuzz
    constructor
    · intro hg
      by_cases h1 : menv.gitApplyExit = 0 <;> by_cases h2 : menv.patchCmdExit = 0 <;>
        simp [mixinApplyStage, gnuFindQuitExit, hg, h1, h2]
    · intro hg
      by_cases h2 : menv.patchCmdExit = 0 <;>
        simp [mixinApplyStage, gnuFindQuitExit, hg, h2]

/-- C4, witness for the amended theorem at a concrete environment. -/
theorem tier_order_amended_witness :
    (applyPatch ⟨1, 0, []⟩ "p.patch").1.head? = some (.gitApply3way "p.patch") :=
  (tier_order_amended.1 ⟨1, 0, []⟩ "p.patch").1

/-- C5: creating a checkpoint and reverting to it restores the observable
tree content byte-identically to the state immediately before `create`, for
every repo state, label and intermediate mutation (including `.rej`
leftovers, which `git clean -fd` removes); and `revert` fails fatally with
exit status 1 when the label does not resolve to a revision. -/
theorem checkpoint_roundtrip :
    (∀ (g : GitRepo) (label : String) (w u : List (String × String)),
      (revertToCheckpoint ((createCheckpoint g label).mutate w u) label).map
          GitRepo.observable = .ok g.observable) ∧
    (∀ (g : GitRepo) (label : String), g.tags.lookup label = none →
      revertToCheckpoint g label = .error 1) := by
  constructor
  · intro g label w u
    simp [createCheckpoint, GitRepo.mutate, revertToCheckpoint, List.lookup,
      GitRepo.observable, Except.map]
  · intro g label h
    simp [revertToCheckpoint, h]

/-- C5, witness: a concrete round trip through a patch attempt that left a
`.rej` file, and a fatal revert for an unknown label. -/
theorem checkpoint_roundtrip_witness :
    (revertToCheckpoint
        ((createCheckpoint ⟨[("f", "old")], [("f", "new")], [("x.rej", "r")], []⟩
            "cp").mutate [("f", "patched")] [("y.rej", "q")]) "cp").map
        GitRepo.observable = .ok [("f", "new"), ("x.rej", "r")] ∧
    revertToCheckpoint ⟨[], [], [], []⟩ "missing" = .error 1 :=
  ⟨checkpoint_roundtrip.1 ⟨[("f", "old")], [("f", "new")], [("x.rej", "r")], []⟩ "cp"
      [("f", "patched")] [("y.rej", "q")],
    checkpoint_roundtrip.2 ⟨[], [], [], []⟩ "missing" (by decide)⟩

/-- C6: the single-patch CLI exits 130 exactly on `KeyboardInterrupt`, 1 on
any other unexpected exception, and otherwise with `main`'s own status,
which is always 0 or 1 and is 0 precisely when resolution succeeded (patch
file found, source dir found, git repo) and either the patch was already
applied and the user declined, or the apply succeeded; every failure —
resolution, conflict with or without revert, failed revert — yields 1. -/
theorem cli_exit_codes (env : MainEnv) :
    topLevelExit env .keyboardInterrupt = 130 ∧
    topLevelExit env .unexpectedError = 1 ∧
    topLevelExit env .completes = mainExit env ∧
    (mainExit env = 0 ∨ mainExit env = 1) ∧
    (mainExit env = 0 ↔ env.patchFileFound = true ∧ env.srcDirFound = true ∧
      env.gitRepo = true ∧
      (((isPatchApplied env.probe "p").2 = true ∧
          confirmResponse env.userResponse = false) ∨
        (applyPatch env.app "p").2.success = true)) := by
  refine ⟨rfl, rfl, rfl, ?_, ?_⟩ <;>
  · unfold mainExit
    cases h1 : env.patchFileFound <;> cases h2 : env.srcDirFound <;>
      cases h3 : env.gitRepo <;>
      cases h4 : (isPatchApplied env.probe "p").2 <;>
      cases h5 : confirmResponse env.userResponse <;>
      cases h6 : (applyPatch env.app "p").2.success <;>
      cases h7 : env.noRevert <;>
      by_cases h8 : env.resetExit = 0 <;>
      simp [h1, h2, h3, h4, h5, h6, h7, h8]

/-- C6, witness: an already-applied patch with the user answering `n` exits
0. -/
theorem cli_exit_codes_witness :
    mainExit ⟨true, true, true, ⟨1, 0⟩, "n", ⟨0, 0, []⟩, false, 0⟩ = 0 :=
  (cli_exit_codes ⟨true, true, true, ⟨1, 0⟩, "n", ⟨0, 0, []⟩, false, 0⟩).2.2.2.2.mpr
    ⟨rfl, rfl, rfl, Or.inl ⟨by decide, by decide⟩⟩

/-- C7, counterexample: a batch run that halts 30 seconds after process
start exits with status 1 but reports no elapsed time — `script_exit` prints
the elapsed wall-clock time only when more than 60 seconds have passed. -/
theorem script_exit_elapsed_counterexample :
    scriptExit 30 1 = (none, 1) ∧ (30 : Nat) ≤ 60 := by
  exact ⟨rfl, by decide⟩

/-- C7, amended: batch application halts at the first patch whose failure
classifier fires fatally — the process exits 1 immediately and no later
patch in the ordered sequence is attempted — and the elapsed wall-clock time
since process start is reported at exit exactly when it exceeds 60
seconds. -/
theorem batch_halt_amended :
    (∀ (e₁ e₂ e₃ : MixinEnv) (p₁ p₂ p₃ : String) (fuzz : Nat),
      (mixinPatch e₁ p₁ false fuzz).2 ≠ .fatalRejected →
      (mixinPatch e₂ p₂ false fuzz).2 = .fatalRejected →
      runBatch [(e₁, p₁), (e₂, p₂), (e₃, p₃)] fuzz = ([p₁, p₂], 1)) ∧
    (∀ (elapsed statuscode : Nat),
      ((scriptExit elapsed statuscode).1 = some elapsed ↔ 60 < elapsed) ∧
      ((scriptExit elapsed statuscode).1 = none ↔ elapsed ≤ 60) ∧
      (scriptExit elapsed statuscode).2 = statuscode) := by
  constructor
  · intro e₁ e₂ e₃ p₁ p₂ p₃ fuzz h1 h2
    cases ho : (mixinPatch e₁ p₁ false fuzz).2 <;>
      simp_all [runBatch]
  · intro elapsed statuscode
    by_cases h : 60 < elapsed <;> simp [scriptExit, h] <;> omega

/-- C7, witness: three ordered patches where the second is rejected — the
first two are attempted, the third never, and the exit status is 1. -/
theorem batch_halt_amended_witness :
    runBatch [(⟨0, 0, true, 0, 0, []⟩, "a"), (⟨0, 0, true, 1, 1, []⟩, "b"),
      (⟨0, 0, true, 0, 0, []⟩, "c")] 2 = (["a", "b"], 1) :=
  batch_halt_amended.1 ⟨0, 0, true, 0, 0, []⟩ ⟨0, 0, true, 1, 1, []⟩
    ⟨0, 0, true, 0, 0, []⟩ "a" "b" "c" 2 (by decide) (by decide)

/-- C8: checkpoint creation commits all current changes including
previously-untracked files (the committed revision carries the full
observable tree, an empty commit being the degenerate case on a clean
tree), attaches the label to that revision replacing any prior attachment,
and leaves a clean tree: tracked content equals the labeled commit and
nothing untracked remains. -/
theorem checkpoint_clean_invariant (g : GitRepo) (label : String) :
    (createCheckpoint g label).headCommit = g.observable ∧
    (createCheckpoint g label).workTracked = (createCheckpoint g label).headCommit ∧
    (createCheckpoint g label).untracked = [] ∧
    (createCheckpoint g label).tags.lookup label =
      some (createCheckpoint g label).headCommit ∧
    (createCheckpoint g label).observable = g.observable := by
  simp [createCheckpoint, GitRepo.observable, List.lookup]

/-- C9: `temp_cd` restores the previous working directory on every exit path
of the enclosed block — normal return, exception, interrupt, and even the
failed existence assertion — so the cwd after exit always equals the cwd
before entry, whatever the block did to it. -/
theorem temp_cd_restores_cwd {σ ε : Type} (pathOk : Bool) (absPath : String)
    (block : ProcState σ → Option ε × ProcState σ) (s : ProcState σ) :
    (tempCd pathOk absPath block s).2.cwd = s.cwd := by
  unfold tempCd
  split <;> rfl

/-- C10: with `reverse=True`, `_mixin.patch` performs neither the
already-applied dry-run probe nor the `git apply` tier: the one and only
command it issues before the `.rej` failure classification is
`patch -p1 -R --fuzz=<fuzz> -i <patchfile>`. -/
theorem reverse_patch_single_command (env : MixinEnv) (pf : String) (fuzz : Nat) :
    mixinPatch env pf true fuzz =
      if env.patchCmdExit = 0 then ([.patchRevFuzz fuzz pf], .appliedPatchCmd)
      else ([.patchRevFuzz fuzz pf, .findRejFirst, .findRejAll], .fatalRejected) := by
  simp only [mixinPatch, mixinApplyStage, gnuFindQuitExit, Bool.not_true,
    Bool.and_false, Bool.false_eq_true, if_false, if_true]

end Camoufox
